import Mathlib

/-!
Verification of the RoboSystems TypeScript client SDK extensions:
a shallow embedding of the SSE streaming client (`SSEClient`), the
operation monitor (`OperationClient`) and the query executor
(`QueryClient`), with theorems settling the specification's claims.
-/

namespace RoboClient

/-! ## A small model of untyped JavaScript values

Event payloads in the source are untyped (`any`).  We model the JSON
values flowing through the client, together with JavaScript truthiness
and the `a || b` operator used throughout the handlers. -/

inductive JsVal where
  | null
  | boolean (b : Bool)
  | num (n : Int)
  | str (s : String)
  | arr (elems : List JsVal)
  | obj (fields : List (String × JsVal))

/-- Property access `v.k`: `none` models JavaScript `undefined`. -/
def JsVal.get : JsVal → String → Option JsVal
  | .obj fs, k => fs.lookup k
  | _, _ => none

/-- JavaScript truthiness of a value. -/
def JsVal.truthy : JsVal → Bool
  | .null => false
  | .boolean b => b
  | .num n => n != 0
  | .str s => s ≠ ""
  | .arr _ => true
  | .obj _ => true

/-- Truthiness of a possibly-undefined value. -/
def jsTruthy : Option JsVal → Bool
  | none => false
  | some v => v.truthy

/-- The JavaScript `a || b` operator on possibly-undefined values. -/
def jsOr (a b : Option JsVal) : Option JsVal :=
  if jsTruthy a then a else b

/-! ## SSEClient configuration (src `SSEConfig` and the constructor)

The constructor spreads the caller's config over the defaults
`maxRetries: 5, retryDelay: 1000, heartbeatInterval: 30000`. -/

structure SSEConfig where
  baseUrl : String
  maxRetries : Nat
  retryDelay : Nat
  heartbeatInterval : Nat
deriving Repr, DecidableEq

/-- The `SSEClient` constructor: defaults overridden by supplied fields. -/
def SSEConfig.make (baseUrl : String)
    (maxRetries? retryDelay? heartbeatInterval? : Option Nat) : SSEConfig :=
  { baseUrl := baseUrl
    maxRetries := maxRetries?.getD 5
    retryDelay := retryDelay?.getD 1000
    heartbeatInterval := heartbeatInterval?.getD 30000 }

/-- The fixed enumeration `EventType` of named SSE event kinds. -/
def eventTypeValues : List String :=
  ["operation_started", "operation_progress", "operation_completed",
   "operation_error", "operation_cancelled", "data_chunk", "metadata",
   "heartbeat", "queue_update"]

/-- The three terminal event kinds checked by `handleTypedEvent`. -/
def terminalKinds : List String :=
  ["operation_completed", "operation_error", "operation_cancelled"]

/-! ## Transport handles

An `EventSource` object.  The connect call that created it captured
`operationId` and `fromSequence` in its handler closures, so we record
them on the handle.  `browserLastId` models the transport's
`lastEventId` property: it is updated by each incoming event that
carries an id field and persists across events without one (it starts
out absent on a freshly constructed handle). -/

inductive ReadyState where
  | connecting
  | opened
  | closedState
deriving Repr, DecidableEq

structure ESRec where
  url : String
  opId : String
  fromSeq : Nat
  readyState : ReadyState
  browserLastId : Option Nat
deriving Repr, DecidableEq

/-! ## Signals emitted via `emit` -/

inductive Signal where
  | connected
  | eventSig (id? : Option Nat)
  | parseError
  | reconnecting (attempt delay : Nat)
  | maxRetriesExceeded
  | closedSig
  | typedSig (kind : String)
deriving Repr, DecidableEq

/-- The listener-map key `emit` uses for each signal. -/
def Signal.kindKey : Signal → String
  | .connected => "connected"
  | .eventSig _ => "event"
  | .parseError => "parse_error"
  | .reconnecting _ _ => "reconnecting"
  | .maxRetriesExceeded => "max_retries_exceeded"
  | .closedSig => "closed"
  | .typedSig k => k

/-! ## Listener map (`Map<string, Set<(data:any)=>void>>`)

Callbacks are identified by numeric handles; the set semantics of
`Set.add` is modelled by insert-if-absent. -/

abbrev Listeners := List (String × List Nat)

def Listeners.kindCallbacks (ls : Listeners) (kind : String) : List Nat :=
  (ls.lookup kind).getD []

def Listeners.add : Listeners → String → Nat → Listeners
  | [], kind, cb => [(kind, [cb])]
  | (k, cbs) :: rest, kind, cb =>
    if k = kind then
      (k, if cb ∈ cbs then cbs else cbs ++ [cb]) :: rest
    else
      (k, cbs) :: Listeners.add rest kind cb

def Listeners.remove : Listeners → String → Nat → Listeners
  | [], _, _ => []
  | (k, cbs) :: rest, kind, cb =>
    if k = kind then (k, cbs.erase cb) :: rest
    else (k, cbs) :: Listeners.remove rest kind cb

/-! ## SSEClient state and world

`World` couples one `SSEClient` object's private fields with the
event-loop environment it interacts with: the table of every
`EventSource` ever constructed (referenced by index), the pending
reconnect backoff timers, and ghost logs of emitted signals, of actual
listener invocations, and of `connect(operationId, fromSequence)`
calls (the requests observable on the wire). -/

structure ClientState where
  config : SSEConfig
  reconnectAttempts : Nat
  lastEventId : Option Nat
  closed : Bool
  eventSource : Option Nat
  listeners : Listeners
deriving Repr, DecidableEq

structure ReconnectTimer where
  delay : Nat
  opId : String
  fromSeq : Nat
deriving Repr, DecidableEq

structure World where
  client : ClientState
  esTable : List ESRec
  pending : List ReconnectTimer
  emitted : List Signal
  invocations : List (Nat × Signal)
  connects : List (String × Nat)
deriving Repr, DecidableEq

/-- A freshly constructed `SSEClient` with its environment. -/
def SSEClient.new (cfg : SSEConfig) : World :=
  { client := { config := cfg, reconnectAttempts := 0, lastEventId := none,
                closed := false, eventSource := none, listeners := [] }
    esTable := [], pending := [], emitted := [], invocations := [], connects := [] }

/-- The stream URL built by `connect`. -/
def sseUrl (cfg : SSEConfig) (opId : String) (fromSeq : Nat) : String :=
  cfg.baseUrl ++ "/v1/operations/" ++ opId ++ "/stream?from_sequence=" ++ toString fromSeq

/-- The `EventSource` the current `this.eventSource` field refers to. -/
def World.currentES (w : World) : Option ESRec :=
  w.client.eventSource.bind (fun i => w.esTable[i]?)

/-- `emit(event, data)`: appended to the emission log; each callback
registered for the signal's kind is invoked. -/
def World.emit (w : World) (s : Signal) : World :=
  { w with
    emitted := w.emitted ++ [s]
    invocations := w.invocations ++
      (w.client.listeners.kindCallbacks s.kindKey).map (fun cb => (cb, s)) }

/-- `connect(operationId, fromSequence)`: builds the URL and constructs a
new `EventSource`, overwriting `this.eventSource`.  Note the source
neither checks `this.closed` nor closes a previously held handle here. -/
def World.connect (w : World) (opId : String) (fromSeq : Nat) : World :=
  { w with
    esTable := w.esTable ++
      [{ url := sseUrl w.client.config opId fromSeq, opId := opId,
         fromSeq := fromSeq, readyState := .connecting, browserLastId := none }]
    client := { w.client with eventSource := some w.esTable.length }
    connects := w.connects ++ [(opId, fromSeq)] }

/-- Update the `EventSource` record at index `i` in place. -/
def setES : List ESRec → Nat → (ESRec → ESRec) → List ESRec
  | [], _, _ => []
  | e :: rest, 0, f => f e :: rest
  | e :: rest, i + 1, f => e :: setES rest i f

/-- `close()`: set the terminal flag, release the transport handle,
emit `"closed"`, then clear every listener. -/
def World.close (w : World) : World :=
  let w1 : World := { w with client := { w.client with closed := true } }
  let w2 : World :=
    match w1.client.eventSource with
    | some i =>
      { w1 with esTable := setES w1.esTable i (fun e => { e with readyState := .closedState })
                client := { w1.client with eventSource := none } }
    | none => w1
  let w3 := w2.emit .closedSig
  { w3 with client := { w3.client with listeners := [] } }

/-- `isConnected()`: a handle exists and reports the open state. -/
def World.isConnected (w : World) : Bool :=
  match w.currentES with
  | some es => es.readyState == .opened
  | none => false

/-- `on(event, listener)`. -/
def World.onListener (w : World) (kind : String) (cb : Nat) : World :=
  { w with client := { w.client with listeners := w.client.listeners.add kind cb } }

/-- `off(event, listener)`. -/
def World.offListener (w : World) (kind : String) (cb : Nat) : World :=
  { w with client := { w.client with listeners := w.client.listeners.remove kind cb } }

/-- `handleError`: if not closed and the retry budget is not exhausted,
bump the attempt counter, emit `"reconnecting"` and schedule a backoff
timer of `retryDelay * 2 ^ (attempts - 1)`; otherwise emit
`"max_retries_exceeded"` and close. -/
def World.handleError (w : World) (opId : String) (fromSeq : Nat) : World :=
  if w.client.closed then w
  else if w.client.reconnectAttempts < w.client.config.maxRetries then
    let attempts := w.client.reconnectAttempts + 1
    let delay := w.client.config.retryDelay * 2 ^ (attempts - 1)
    let w1 : World := { w with client := { w.client with reconnectAttempts := attempts } }
    let w2 := w1.emit (.reconnecting attempts delay)
    { w2 with pending := w2.pending ++ [⟨delay, opId, fromSeq⟩] }
  else
    (w.emit .maxRetriesExceeded).close

/-- Transport `open` on the current handle: mark it open, reset the
attempt counter, emit `"connected"` (and resolve the connect promise,
handled at the monitor layer). -/
def World.onOpen (w : World) : World :=
  match w.client.eventSource with
  | none => w
  | some i =>
    match w.esTable[i]? with
    | none => w
    | some es =>
      if es.readyState = .connecting then
        let w1 : World := { w with esTable := setES w.esTable i (fun e => { e with readyState := .opened }) }
        let w2 : World := { w1 with client := { w1.client with reconnectAttempts := 0 } }
        w2.emit .connected
      else w

/-- Transport `error` on the current handle: the `onerror` closure
clears the connection timeout and, unless closed, calls `handleError`
with the `operationId` and `fromSequence` it captured. -/
def World.onError (w : World) : World :=
  match w.client.eventSource with
  | none => w
  | some i =>
    match w.esTable[i]? with
    | none => w
    | some es =>
      if w.client.closed then w
      else w.handleError es.opId es.fromSeq

/-- `handleMessage` for an unnamed message on the current (open)
handle.  `newId?` is the id field carried by this event, `parseOk`
whether `JSON.parse` succeeds.  The transport's `lastEventId` persists
across events without an id field. -/
def World.onMessage (w : World) (newId? : Option Nat) (parseOk : Bool) : World :=
  match w.client.eventSource with
  | none => w
  | some i =>
    match w.esTable[i]? with
    | none => w
    | some es =>
      if es.readyState = .opened then
        let bid := newId? <|> es.browserLastId
        let w1 : World := { w with esTable := setES w.esTable i (fun e => { e with browserLastId := bid }) }
        if parseOk then
          let w2 : World := { w1 with client := { w1.client with lastEventId := bid } }
          w2.emit (.eventSig bid)
        else
          w1.emit .parseError
      else w

/-- `handleTypedEvent` for a named event of one of the `EventType`
kinds on the current (open) handle: on parse success record the id,
dispatch the event, then auto-close if the kind is terminal. -/
def World.onTyped (w : World) (kind : String) (newId? : Option Nat) (parseOk : Bool) : World :=
  if kind ∈ eventTypeValues then
    match w.client.eventSource with
    | none => w
    | some i =>
      match w.esTable[i]? with
      | none => w
      | some es =>
        if es.readyState = .opened then
          let bid := newId? <|> es.browserLastId
          let w1 : World := { w with esTable := setES w.esTable i (fun e => { e with browserLastId := bid }) }
          if parseOk then
            let w2 : World := { w1 with client := { w1.client with lastEventId := bid } }
            let w3 := w2.emit (.typedSig kind)
            if kind ∈ terminalKinds then w3.close else w3
          else
            w1.emit .parseError
        else w
  else w

/-- Firing the earliest pending backoff timer.  The callback computes
the resumption marker from the *current* `this.lastEventId` (falling
back to the captured `fromSequence`) and calls `connect` — without
re-checking `this.closed`. -/
def World.fireTimer (w : World) : World :=
  match w.pending with
  | [] => w
  | t :: rest =>
    let w1 : World := { w with pending := rest }
    let resumeFrom :=
      match w1.client.lastEventId with
      | some n => n + 1
      | none => t.fromSeq
    w1.connect t.opId resumeFrom

/-! ## Event-loop stimuli and traces -/

inductive Stimulus where
  | transportOpen
  | message (newId? : Option Nat) (parseOk : Bool)
  | typed (kind : String) (newId? : Option Nat) (parseOk : Bool)
  | transportError
  | timerFire
  | callClose
  | callOn (kind : String) (cb : Nat)
  | callOff (kind : String) (cb : Nat)
deriving Repr, DecidableEq

def step (w : World) : Stimulus → World
  | .transportOpen => w.onOpen
  | .message newId? parseOk => w.onMessage newId? parseOk
  | .typed kind newId? parseOk => w.onTyped kind newId? parseOk
  | .transportError => w.onError
  | .timerFire => w.fireTimer
  | .callClose => w.close
  | .callOn kind cb => w.onListener kind cb
  | .callOff kind cb => w.offListener kind cb

def run (w : World) (ts : List Stimulus) : World :=
  ts.foldl step w

/-! ## OperationClient.monitorOperation: the promise layer

`monitorOperation` creates an `SSEClient`, registers it, optionally arms
a watchdog timer, awaits `connect`, and wires listeners that settle the
returned promise.  We model the settlement of that promise as a state
machine over the events that can reach it:

* the three terminal event kinds (wired listeners),
* queue-update and progress events (callbacks only, no settlement),
* the watchdog firing (`cleanupClient` then `reject`),
* exhaustion of the SSE retry budget (the SSE client emits
  `"max_retries_exceeded"` — for which `monitorOperation` registers no
  listener — and closes, clearing all listeners).

`connect` itself either resolves (listeners get wired), rejects with
its fixed connection timeout (the `.catch` branch clears the watchdog,
force-releases the client and rejects the outer promise), or — when a
transport error precedes `open`, since the error handler clears the
connection timeout and the retry chain swallows its own rejections —
never settles at all. -/

structure OperationResultM where
  success : Bool
  result : Option JsVal
  error : Option JsVal
  metadata : Option JsVal

/-- The `OPERATION_COMPLETED` handler's resolution value. -/
def completedResult (data : JsVal) : OperationResultM :=
  { success := true
    result := jsOr (data.get "result") (some data)
    error := none
    metadata := data.get "metadata" }

/-- The `OPERATION_ERROR` handler's resolution value. -/
def errorResult (e : JsVal) : OperationResultM :=
  { success := false
    result := none
    error := jsOr (jsOr (e.get "message") (e.get "error")) (some (.str "Operation failed"))
    metadata := e.get "metadata" }

/-- The `OPERATION_CANCELLED` handler's resolution value. -/
def cancelledResult (d : JsVal) : OperationResultM :=
  { success := false
    result := none
    error := some (.str "Operation cancelled")
    metadata := some d }

inductive MonEvent where
  | queueUpdate (d : JsVal)
  | progress (d : JsVal)
  | completed (d : JsVal)
  | opError (d : JsVal)
  | cancelled (d : JsVal)
  | timeoutFires
  | retriesExhausted

inductive Settled where
  | resolvedWith (r : OperationResultM)
  | rejectedWith (msg : String)

structure MonState where
  settled : Option Settled
  connClosed : Bool
  timeoutCancelled : Bool
  timeoutFired : Bool
  released : Bool

def initMonState : MonState :=
  { settled := none, connClosed := false, timeoutCancelled := false,
    timeoutFired := false, released := false }

/-- One event reaching a connected monitor.  A terminal handler clears
the watchdog, resolves the promise (first settlement wins) and — via
`handleTypedEvent`'s auto-close — closes the connection, after which
listeners are cleared and no further event is delivered.  The watchdog,
when armed, uncancelled and not yet fired, force-releases the client
and rejects.  Retry exhaustion only closes the connection: no wired
listener observes it and the promise is left untouched. -/
def monStep (hasTimeout : Bool) (st : MonState) : MonEvent → MonState
  | .queueUpdate _ => st
  | .progress _ => st
  | .completed d =>
    if st.connClosed then st
    else
      { st with timeoutCancelled := true, connClosed := true
                settled := st.settled <|> some (.resolvedWith (completedResult d)) }
  | .opError e =>
    if st.connClosed then st
    else
      { st with timeoutCancelled := true, connClosed := true
                settled := st.settled <|> some (.resolvedWith (errorResult e)) }
  | .cancelled d =>
    if st.connClosed then st
    else
      { st with timeoutCancelled := true, connClosed := true
                settled := st.settled <|> some (.resolvedWith (cancelledResult d)) }
  | .timeoutFires =>
    if hasTimeout && !st.timeoutCancelled && !st.timeoutFired then
      { st with timeoutFired := true, released := true
                settled := st.settled <|> some (.rejectedWith "Operation timeout") }
    else st
  | .retriesExhausted =>
    if st.connClosed then st else { st with connClosed := true }

/-- Events reaching a monitor whose `connect` call never settles: no
listener was ever wired, so only the watchdog can act. -/
def monStepHanging (hasTimeout : Bool) (st : MonState) : MonEvent → MonState
  | .timeoutFires =>
    if hasTimeout && !st.timeoutCancelled && !st.timeoutFired then
      { st with timeoutFired := true, released := true
                settled := st.settled <|> some (.rejectedWith "Operation timeout") }
    else st
  | _ => st

inductive ConnectOutcome where
  | opens
  | failsConnect
  | hangs

/-- The settlement of the promise returned by
`monitorOperation(operationId, options)`: `hasTimeout` records whether
`options.timeout` was supplied (and truthy, so that the watchdog timer
was actually armed). -/
def runMonitor (hasTimeout : Bool) (co : ConnectOutcome) (events : List MonEvent) : MonState :=
  match co with
  | .opens => events.foldl (monStep hasTimeout) initMonState
  | .failsConnect =>
    { settled := some (.rejectedWith "Connection timeout"), connClosed := true,
      timeoutCancelled := true, timeoutFired := false, released := true }
  | .hangs => events.foldl (monStepHanging hasTimeout) initMonState

/-- `monitorMultiple`: `Promise.all` over `monitorOperation` calls —
resolves with the id-to-result map exactly when every monitor resolves. -/
def runMonitorMultiple :
    List (String × Bool × ConnectOutcome × List MonEvent) →
      Option (List (String × OperationResultM))
  | [] => some []
  | q :: rest =>
    match (runMonitor q.2.1 q.2.2.1 q.2.2.2).settled with
    | some (.resolvedWith r) =>
      match runMonitorMultiple rest with
      | some out => some ((q.1, r) :: out)
      | none => none
    | _ => none

/-! ## OperationClient registry (`sseClients`, `cleanupTimeouts`,
`cleanupInterval`, `cleanupClient`, `scheduleCleanup`, `closeAll`)

`pool` holds every `SSEClient` object the monitor ever created; the
registry maps operation ids to pool indices.  Objects referenced by a
pending timer closure outlive their registry entry, so the pool is
never shrunk — releasing a client closes it in place. -/

structure OpWorld where
  pool : List World
  registry : List (String × Nat)
  graceTimers : List (String × Nat)
  sweepActive : Bool
deriving Repr, DecidableEq

/-- Apply an `SSEClient` method to the pool object at index `i`. -/
def poolApply (pool : List World) (i : Nat) (f : World → World) : List World :=
  pool.mapIdx (fun j w => if j = i then f w else w)

/-- `cleanupClient(operationId)`: close and deregister the client, and
clear any pending grace-delay timer for this operation. -/
def OpWorld.cleanupClient (w : OpWorld) (opId : String) : OpWorld :=
  let w1 : OpWorld :=
    match w.registry.lookup opId with
    | some i =>
      { w with pool := poolApply w.pool i World.close
               registry := w.registry.filter (fun p => p.1 ≠ opId) }
    | none => w
  { w1 with graceTimers := w1.graceTimers.filter (fun p => p.1 ≠ opId) }

/-- `scheduleCleanup(operationId, delayMs)`: replace any existing
grace-delay timer for this operation with a fresh one. -/
def OpWorld.scheduleCleanup (w : OpWorld) (opId : String) (delayMs : Nat) : OpWorld :=
  { w with graceTimers := (w.graceTimers.filter (fun p => p.1 ≠ opId)) ++ [(opId, delayMs)] }

/-- A grace-delay timer firing: `cleanupClient` then drop the timer. -/
def OpWorld.fireGrace (w : OpWorld) (opId : String) : OpWorld :=
  if (w.graceTimers.lookup opId).isSome then w.cleanupClient opId else w

/-- `performPeriodicCleanup`: force-release every registered client
whose connection reports itself disconnected. -/
def OpWorld.performPeriodicCleanup (w : OpWorld) : OpWorld :=
  (w.registry.filter (fun p =>
      match w.pool.get? p.2 with
      | some cw => !cw.isConnected
      | none => false)).foldl (fun acc p => acc.cleanupClient p.1) w

/-- A pending SSE backoff timer firing inside pool client `i` after the
owning `OperationClient`'s own timers are gone. -/
def OpWorld.fireBackoff (w : OpWorld) (i : Nat) : OpWorld :=
  { w with pool := poolApply w.pool i World.fireTimer }

/-- `closeAll()`: cancel the periodic sweep, clear every grace-delay
timer, then `cleanupClient` every registered operation. -/
def OpWorld.closeAll (w : OpWorld) : OpWorld :=
  let w1 : OpWorld := { w with sweepActive := false, graceTimers := [] }
  w.registry.foldl (fun acc p => acc.cleanupClient p.1) w1

/-! ## QueryClient.executeQuery response dispatch

The executor issues the HTTP request and branches on the response:
thrown network error, raw-stream handling, immediate result, queued
response (throw a typed `QueuedQueryError` when `maxWait === 0`, else
delegate to SSE monitoring), or an unexpected-format error. -/

structure SdkResponse where
  error : Option JsVal
  data : Option JsVal
  hasRaw : Bool

structure QueryResultM where
  data : Option JsVal
  columns : Option JsVal
  row_count : Option JsVal
  execution_time_ms : Option JsVal
  graph_id : String
  timestamp : Option JsVal

/-- `.length` of the `data` field when it is an array. -/
def lenOf : Option JsVal → Option JsVal
  | some (.arr xs) => some (.num xs.length)
  | _ => none

/-- The immediate-result mapping (`now` stands for
`new Date().toISOString()` at the moment of the call). -/
def mkQueryResult (graphId now : String) (rd : Option JsVal) : QueryResultM :=
  { data := rd.bind (fun v => v.get "data")
    columns := rd.bind (fun v => v.get "columns")
    row_count := jsOr (rd.bind (fun v => v.get "row_count")) (lenOf (rd.bind (fun v => v.get "data")))
    execution_time_ms := jsOr (rd.bind (fun v => v.get "execution_time_ms")) (some (.num 0))
    graph_id := graphId
    timestamp := jsOr (rd.bind (fun v => v.get "timestamp")) (some (.str now)) }

/-- `status === 'queued'` (strict string equality). -/
def isQueuedStatus : Option JsVal → Bool
  | some (.str s) => s == "queued"
  | _ => false

/-- The `operation_id` handed to `waitForQueryCompletion`. -/
def opIdString : Option JsVal → String
  | some (.str s) => s
  | _ => ""

inductive ExecOutcome where
  | thrownError (e : JsVal)
  | streamed
  | immediate (r : QueryResultM)
  | thrownQueued (queueInfo : JsVal)
  | delegated (opId : String)
  | thrownUnexpected

/-- The `QueuedQueryError` message (`super('Query was queued')`). -/
def queuedQueryErrorMessage : String := "Query was queued"

/-- The `QueuedQueryError` name field. -/
def queuedQueryErrorName : String := "QueuedQueryError"

/-- The branches of `executeQuery` that follow the network-error check:
raw-stream check, immediate-result check (`data !== undefined &&
columns` truthy), queued check (`status === 'queued' && operation_id`
truthy, then `maxWait === 0`), unexpected format. -/
def executeQueryBody (graphId : String) (mode : Option String) (maxWait : Option Nat)
    (now : String) (resp : SdkResponse) : ExecOutcome :=
  if mode == some "stream" && resp.hasRaw then .streamed
  else
    let rd := resp.data
    if (rd.bind (fun v => v.get "data")).isSome &&
        jsTruthy (rd.bind (fun v => v.get "columns")) then
      .immediate (mkQueryResult graphId now rd)
    else if isQueuedStatus (rd.bind (fun v => v.get "status")) &&
        jsTruthy (rd.bind (fun v => v.get "operation_id")) then
      if maxWait = some 0 then .thrownQueued (rd.getD .null)
      else .delegated (opIdString (rd.bind (fun v => v.get "operation_id")))
    else .thrownUnexpected

/-- `executeQuery` response dispatch, mirroring the source's branch
order, starting with the `'error' in response && response.error`
re-throw. -/
def executeQuery (graphId : String) (mode : Option String) (maxWait : Option Nat)
    (now : String) (resp : SdkResponse) : ExecOutcome :=
  match resp.error with
  | some e =>
    if e.truthy then .thrownError e
    else executeQueryBody graphId mode maxWait now resp
  | none => executeQueryBody graphId mode maxWait now resp

/-! ## Concrete demonstration values and auxiliary predicates -/

/-- A configuration built with all defaults. -/
def demoConfig : SSEConfig := SSEConfig.make "http://api" none none none

/-- A fresh client right after its initial `connect("op1", 0)` call. -/
def demoStart : World := (SSEClient.new demoConfig).connect "op1" 0

/-- The `EventSource` created by `demoStart`'s connect call. -/
def demoES : ESRec :=
  { url := sseUrl demoConfig "op1" 0, opId := "op1", fromSeq := 0,
    readyState := .connecting, browserLastId := none }

/-- A client that saw `open` and then a transport drop: exactly one
reconnect backoff timer is pending. -/
def pendingClientWorld : World := run demoStart [.transportOpen, .transportError]

/-- An `OperationClient` owning one monitored operation whose client is
mid-backoff, with a grace-delay timer pending and the sweep active. -/
def opDemo : OpWorld :=
  { pool := [pendingClientWorld], registry := [("op1", 0)],
    graceTimers := [("op1", 5000)], sweepActive := true }

/-- The world after open, transport error, explicit `close()`, and the
backoff timer then firing. -/
def closeRaceWorld : World :=
  run demoStart [.transportOpen, .transportError, .callClose, .timerFire]

/-- Events that settle nothing and close nothing (callback-only). -/
def MonEvent.isBenign : MonEvent → Bool
  | .queueUpdate _ => true
  | .progress _ => true
  | _ => false

/-- Result exclusivity: the populated payload field is determined by
the success flag. -/
def exclusiveResult (r : OperationResultM) : Prop :=
  (r.success = true → r.error = none) ∧ (r.success = false → r.result = none)

/-- A queued query response object of the shape the server sends. -/
def queuedObj (oid : String) (qp wse : Int) (msg : String) : JsVal :=
  .obj [("status", .str "queued"), ("operation_id", .str oid),
        ("queue_position", .num qp), ("estimated_wait_seconds", .num wse),
        ("message", .str msg)]

/-! ## Drop/reconnect episodes (for the resumption property)

An episode describes the life of one transport handle between two
reconnect attempts: either it opened and delivered some messages
(`msgs` lists each message's id field) before dropping, or it dropped
without ever opening; either way the drop schedules a backoff timer,
which then fires and issues the next reconnect. -/

structure Episode where
  opened : Bool
  msgs : List (Option Nat)

def Episode.play (w : World) (e : Episode) : World :=
  let w1 :=
    if e.opened then
      e.msgs.foldl (fun acc id? => step acc (.message id? true)) (step w .transportOpen)
    else w
  step (step w1 .transportError) .timerFire

def runEpisodes (w : World) (eps : List Episode) : World :=
  eps.foldl Episode.play w

/-- The transport's last-event-id after delivering `ids` on a handle
whose stored id was `m`. -/
def lastIdCarry (m : Option Nat) (ids : List (Option Nat)) : Option Nat :=
  ids.foldl (fun acc id? => id? <|> acc) m

/-- The last sequence marker received anywhere, after an episode. -/
def Episode.marker (e : Episode) (m : Option Nat) : Option Nat :=
  if e.opened then lastIdCarry m e.msgs else m

/-- The marker the next reconnect should resume from: last received
marker plus one, else the original starting marker. -/
def expResume (s0 : Nat) : Option Nat → Nat
  | some k => k + 1
  | none => s0

/-- The expected `from_sequence` of each reconnect attempt. -/
def expectedResumes (s0 : Nat) (m : Option Nat) : List Episode → List Nat
  | [] => []
  | e :: rest => expResume s0 (e.marker m) :: expectedResumes s0 (e.marker m) rest

/-- The invariant between episodes: client not closed, no timer
pending, the recorded last marker consistent with the history, and the
current handle fresh, for the right operation, with its starting
marker equal to the expected resumption point. -/
def EpInv (op : String) (s0 : Nat) (M : Option Nat) (w : World) : Prop :=
  w.client.closed = false ∧
  w.pending = [] ∧
  (∀ m, w.client.lastEventId = some m → M = some m) ∧
  ∃ i es, w.client.eventSource = some i ∧ w.esTable[i]? = some es ∧
    es.opId = op ∧ es.readyState = .connecting ∧ es.browserLastId = none ∧
    es.fromSeq = expResume s0 M

/-- Rejection invariant: any rejection is the armed watchdog's, and the
client was force-released at it. -/
def RejInv (ht : Bool) (st : MonState) : Prop :=
  ∀ m, st.settled = some (.rejectedWith m) →
    m = "Operation timeout" ∧ ht = true ∧ st.released = true

/-- Exclusivity invariant for any resolved settlement. -/
def ExclInv (st : MonState) : Prop :=
  ∀ r, st.settled = some (.resolvedWith r) → exclusiveResult r

/-- A concrete completion payload. -/
def demoCompleted : JsVal :=
  .obj [("result", .num 42), ("metadata", .obj [("elapsed", .num 7)])]

/-! # Theorems -/

/-- A transport error on an existing handle of an unclosed client runs
`handleError` with the parameters captured by that handle's connect
call. -/
lemma onError_handleError (w : World) (es : ESRec) (i : Nat)
    (h1 : w.client.eventSource = some i) (h2 : w.esTable[i]? = some es)
    (hcl : w.client.closed = false) :
    w.onError = w.handleError es.opId es.fromSeq := by
  simp [World.onError, h1, h2, hcl]

/-- C3: for every reconnect attempt index `n` (1-indexed), the backoff
delay scheduled before attempt `n` is `retryDelay * 2 ^ (n - 1)` (with
the defaults, 1000·2^k giving 1000, 2000, 4000, 8000, 16000); once the
configured maximum is reached, the next consecutive failure schedules
no further attempt, emits `"max_retries_exceeded"` exactly once
followed by the close signal, and closes the connection — after which
a further transport error changes nothing at all. -/
theorem backoff_delay_and_retry_cap (w : World) (es : ESRec) (i n : Nat)
    (h1 : w.client.eventSource = some i) (h2 : w.esTable[i]? = some es)
    (hcl : w.client.closed = false) :
    (w.client.reconnectAttempts + 1 = n → n ≤ w.client.config.maxRetries →
      (step w .transportError).pending =
        w.pending ++ [⟨w.client.config.retryDelay * 2 ^ (n - 1), es.opId, es.fromSeq⟩] ∧
      (step w .transportError).emitted =
        w.emitted ++ [.reconnecting n (w.client.config.retryDelay * 2 ^ (n - 1))] ∧
      (step w .transportError).client.closed = false) ∧
    (w.client.config.maxRetries ≤ w.client.reconnectAttempts →
      (step w .transportError).pending = w.pending ∧
      (step w .transportError).emitted = w.emitted ++ [.maxRetriesExceeded, .closedSig] ∧
      (step w .transportError).client.closed = true ∧
      step (step w .transportError) .transportError = step w .transportError) ∧
    (demoConfig.maxRetries = 5 ∧ demoConfig.retryDelay = 1000 ∧
      (List.range 5).map (fun k => demoConfig.retryDelay * 2 ^ k) =
        [1000, 2000, 4000, 8000, 16000]) := by
  have he : step w .transportError = w.handleError es.opId es.fromSeq :=
    onError_handleError w es i h1 h2 hcl
  refine ⟨?_, ?_, by decide⟩
  · intro hn hle
    cases hn
    have hlt : w.client.reconnectAttempts < w.client.config.maxRetries := by omega
    rw [he]
    simp [World.handleError, hcl, hlt, World.emit]
  · intro hge
    have hlt : ¬ w.client.reconnectAttempts < w.client.config.maxRetries := by omega
    rw [he]
    simp only [World.handleError, hcl, if_false, hlt, ite_false, Bool.false_eq_true]
    refine ⟨?_, ?_, ?_, ?_⟩
    · simp [World.close, World.emit, h1]
    · simp [World.close, World.emit, h1]
    · simp [World.close, World.emit, h1]
    · have hnone : ((w.emit .maxRetriesExceeded).close).client.eventSource = none := by
        simp [World.close, World.emit, h1]
      show ((w.emit .maxRetriesExceeded).close).onError = _
      simp [World.onError, hnone]

/-- Witness for the backoff/cap theorem at a concrete freshly connected
client, attempt index 1. -/
theorem backoff_delay_witness :
    demoStart.client.eventSource = some 0 ∧ demoStart.esTable[0]? = some demoES ∧
    demoStart.client.closed = false ∧ demoStart.client.reconnectAttempts + 1 = 1 ∧
    (1 : Nat) ≤ demoStart.client.config.maxRetries ∧
    (step demoStart .transportError).pending =
      demoStart.pending ++
        [⟨demoStart.client.config.retryDelay * 2 ^ (1 - 1), demoES.opId, demoES.fromSeq⟩] :=
  ⟨rfl, rfl, rfl, rfl, by decide,
    ((backoff_delay_and_retry_cap demoStart demoES 0 1 rfl rfl rfl).1 rfl (by decide)).1⟩

/-- C6: dispatching any of the three terminal event kinds on an open
connection dispatches the event to listeners and then closes the
connection automatically: `isConnected()` becomes false with no
explicit `close()` call in the trace. -/
theorem terminal_event_auto_close (w : World) (es : ESRec) (i : Nat)
    (kind : String) (id? : Option Nat)
    (h1 : w.client.eventSource = some i) (h2 : w.esTable[i]? = some es)
    (hrs : es.readyState = .opened) (hk : kind ∈ terminalKinds) :
    (step w (.typed kind id? true)).isConnected = false ∧
    (step w (.typed kind id? true)).client.closed = true ∧
    (step w (.typed kind id? true)).client.eventSource = none ∧
    (step w (.typed kind id? true)).emitted = w.emitted ++ [.typedSig kind, .closedSig] := by
  have hev : kind ∈ eventTypeValues := by
    simp only [terminalKinds, List.mem_cons, List.not_mem_nil, or_false] at hk
    rcases hk with rfl | rfl | rfl <;> decide
  simp [step, World.onTyped, h1, h2, hrs, hev, hk, World.emit, World.close,
    World.isConnected, World.currentES]

/-- Witness for terminal auto-close: a concrete open connection
receiving `operation_completed`. -/
theorem terminal_event_auto_close_witness :
    (step demoStart .transportOpen).client.eventSource = some 0 ∧
    ((step demoStart .transportOpen).esTable[0]?.map (fun e => e.readyState) =
      some .opened) ∧
    "operation_completed" ∈ terminalKinds ∧
    (step (step demoStart .transportOpen) (.typed "operation_completed" none true)).isConnected
      = false := by
  refine ⟨rfl, rfl, by decide, ?_⟩
  exact (terminal_event_auto_close (step demoStart .transportOpen)
    { demoES with readyState := .opened } 0 "operation_completed" none
    rfl rfl rfl (by decide)).1

/-- C4 (code bug): `close()` does not cancel a pending reconnect
backoff timer, and the timer's callback calls `connect` without
re-checking the `closed` flag.  Concretely: after open, a transport
drop (scheduling a reconnect), and an explicit `close()`, the timer
fires and a second `connect` request is issued and a fresh live
`EventSource` handle is installed, even though `closed` has been set
and stays set. -/
theorem close_then_timer_reconnects :
    (run demoStart [.transportOpen, .transportError, .callClose]).client.closed = true ∧
    (run demoStart [.transportOpen, .transportError, .callClose]).connects = [("op1", 0)] ∧
    (run demoStart [.transportOpen, .transportError, .callClose]).pending ≠ [] ∧
    closeRaceWorld.client.closed = true ∧
    closeRaceWorld.connects = [("op1", 0), ("op1", 0)] ∧
    closeRaceWorld.client.eventSource = some 1 ∧
    closeRaceWorld.currentES.isSome = true := by
  decide

/-- Closing an already-closed, already-released client with no
listeners only appends one more (unheard) `"closed"` emission. -/
lemma close_again (w : World) (h1 : w.client.closed = true)
    (h2 : w.client.eventSource = none) (h3 : w.client.listeners = []) :
    w.close = { w with emitted := w.emitted ++ [.closedSig] } := by
  obtain ⟨⟨cfg, ra, lei, cl, evs, ls⟩, est, pend, em, inv, conn⟩ := w
  simp only at h1 h2 h3
  subst h1; subst h2; subst h3
  simp [World.close, World.emit, Listeners.kindCallbacks]

/-- Iterating `close()` on a closed, released, listener-free client
only extends the ghost emission log. -/
lemma close_iter (n : Nat) : ∀ (w1 : World), w1.client.closed = true →
    w1.client.eventSource = none → w1.client.listeners = [] →
    run w1 (List.replicate n .callClose) =
      { w1 with emitted := w1.emitted ++ List.replicate n .closedSig } := by
  induction n with
  | zero => intro w1 _ _ _; simp [run]
  | succ n ih =>
    intro w1 h1 h2 h3
    have hstep : step w1 .callClose = { w1 with emitted := w1.emitted ++ [.closedSig] } :=
      close_again w1 h1 h2 h3
    have : run w1 (List.replicate (n + 1) .callClose) =
        run (step w1 .callClose) (List.replicate n .callClose) := by
      simp [run, List.replicate_succ]
    rw [this, hstep,
      ih { w1 with emitted := w1.emitted ++ [.closedSig] } h1 h2 h3]
    simp [List.replicate_succ]

/-- `emit` under an empty listener map invokes nothing. -/
lemma emit_no_listeners (w : World) (s : Signal) (h : w.client.listeners = []) :
    (w.emit s).invocations = w.invocations ∧ (w.emit s).client = w.client := by
  simp [World.emit, Listeners.kindCallbacks, h]

/-- Every stimulus except a fresh `on(...)` registration preserves an
empty listener map and invokes no callback. -/
lemma step_no_listeners (w : World) (s : Stimulus) (h3 : w.client.listeners = [])
    (hs : ∀ k cb, s ≠ .callOn k cb) :
    (step w s).client.listeners = [] ∧ (step w s).invocations = w.invocations := by
  cases s with
  | callOn k cb => exact absurd rfl (hs k cb)
  | callOff k cb =>
    simp [step, World.offListener, h3, Listeners.remove]
  | callClose =>
    simp [step, World.close, World.emit, Listeners.kindCallbacks, h3]
    split <;> simp [Listeners.kindCallbacks, h3]
  | transportOpen =>
    simp only [step, World.onOpen]
    repeat' split
    all_goals first
      | exact ⟨h3, rfl⟩
      | assumption
      | simp [World.emit, Listeners.kindCallbacks, h3]
  | transportError =>
    simp only [step, World.onError]
    split
    · exact ⟨h3, rfl⟩
    · split
      · exact ⟨h3, rfl⟩
      · split
        · exact ⟨h3, rfl⟩
        · simp only [World.handleError]
          split
          · exact ⟨h3, rfl⟩
          · split
            · simp [World.emit, Listeners.kindCallbacks, h3]
            · simp [World.close, World.emit, Listeners.kindCallbacks, h3]
              split <;> simp [Listeners.kindCallbacks, h3]
  | timerFire =>
    simp only [step, World.fireTimer]
    split
    · exact ⟨h3, rfl⟩
    · simp [World.connect, h3]
  | message newId? parseOk =>
    simp only [step, World.onMessage]
    split
    · exact ⟨h3, rfl⟩
    · split
      · exact ⟨h3, rfl⟩
      · split
        · split
          · simp [World.emit, Listeners.kindCallbacks, h3]
          · simp [World.emit, Listeners.kindCallbacks, h3]
        · exact ⟨h3, rfl⟩
  | typed kind newId? parseOk =>
    simp only [step, World.onTyped]
    split
    · split
      · exact ⟨h3, rfl⟩
      · split
        · exact ⟨h3, rfl⟩
        · split
          · split
            · split
              · simp [World.close, World.emit, Listeners.kindCallbacks, h3]
                split <;> simp [Listeners.kindCallbacks, h3]
              · simp [World.emit, Listeners.kindCallbacks, h3]
            · simp [World.emit, Listeners.kindCallbacks, h3]
          · exact ⟨h3, rfl⟩
    · exact ⟨h3, rfl⟩

/-- Along any trace free of `on(...)` registrations, a listener-free
client never has a callback invoked. -/
lemma run_no_on (ts : List Stimulus) : ∀ (w : World), w.client.listeners = [] →
    (∀ k cb, Stimulus.callOn k cb ∉ ts) →
    (run w ts).client.listeners = [] ∧ (run w ts).invocations = w.invocations := by
  induction ts with
  | nil => intro w h _; exact ⟨h, rfl⟩
  | cons s rest ih =>
    intro w h hno
    have hs : ∀ k cb, s ≠ .callOn k cb := by
      intro k cb he
      exact hno k cb (by rw [he]; exact List.mem_cons_self _ _)
    obtain ⟨hl, hi⟩ := step_no_listeners w s h hs
    have hrest : ∀ k cb, Stimulus.callOn k cb ∉ rest :=
      fun k cb hm => hno k cb (List.mem_cons_of_mem _ hm)
    obtain ⟨hl2, hi2⟩ := ih (step w s) hl hrest
    refine ⟨hl2, ?_⟩
    show (run (step w s) rest).invocations = w.invocations
    rw [hi2, hi]

/-- C10: `close()` is idempotent — any number of repeat calls after the
first only append unheard `"closed"` entries to the ghost emission log
and change nothing else; the first call releases the transport handle,
emits the `"closed"` signal, and clears all listeners, after which no
callback can ever be invoked again (absent new registrations). -/
theorem close_is_idempotent (w : World) :
    (∀ n, run (step w .callClose) (List.replicate n .callClose) =
      { (step w .callClose) with
          emitted := (step w .callClose).emitted ++ List.replicate n .closedSig }) ∧
    (step w .callClose).client.closed = true ∧
    (step w .callClose).client.eventSource = none ∧
    (step w .callClose).emitted = w.emitted ++ [.closedSig] ∧
    (step w .callClose).client.listeners = [] ∧
    (∀ ts, (∀ k cb, Stimulus.callOn k cb ∉ ts) →
      (run (step w .callClose) ts).invocations = (step w .callClose).invocations) := by
  have hfields : (step w .callClose).client.closed = true ∧
      (step w .callClose).client.eventSource = none ∧
      (step w .callClose).emitted = w.emitted ++ [.closedSig] ∧
      (step w .callClose).client.listeners = [] := by
    simp only [step, World.close]
    split <;> simp_all [World.emit]
  obtain ⟨hcl, hev, hem, hls⟩ := hfields
  refine ⟨fun n => close_iter n _ hcl hev hls, hcl, hev, hem, hls, ?_⟩
  intro ts hts
  exact (run_no_on ts _ hls hts).2

/-- Witness for idempotent close at a concrete client and a concrete
`on`-free continuation trace. -/
theorem close_is_idempotent_witness :
    (∀ k cb, Stimulus.callOn k cb ∉ ([.transportError] : List Stimulus)) ∧
    (run (step demoStart .callClose) [.transportError]).invocations =
      (step demoStart .callClose).invocations := by
  refine ⟨?_, (close_is_idempotent demoStart).2.2.2.2.2 [.transportError] ?_⟩ <;>
    intro k cb h <;> simp at h

/-- Callback-only events do not change the monitor's settlement state. -/
lemma monStep_benign (ht : Bool) (st : MonState) (e : MonEvent)
    (h : e.isBenign = true) : monStep ht st e = st := by
  cases e <;> simp_all [MonEvent.isBenign, monStep]

lemma foldl_benign (ht : Bool) : ∀ (pre : List MonEvent) (st : MonState),
    (∀ e ∈ pre, e.isBenign = true) → pre.foldl (monStep ht) st = st := by
  intro pre
  induction pre with
  | nil => intro st _; rfl
  | cons e rest ih =>
    intro st h
    have he := monStep_benign ht st e (h e (List.mem_cons_self _ _))
    simp only [List.foldl_cons, he]
    exact ih st (fun x hx => h x (List.mem_cons_of_mem _ hx))

/-- After a terminal settlement (connection closed, watchdog cleared)
no further event changes the monitor state. -/
lemma monStep_frozen (ht : Bool) (st : MonState) (e : MonEvent)
    (h1 : st.connClosed = true) (h2 : st.timeoutCancelled = true) :
    monStep ht st e = st := by
  cases e <;> simp [monStep, h1, h2]

lemma foldl_frozen (ht : Bool) : ∀ (post : List MonEvent) (st : MonState),
    st.connClosed = true → st.timeoutCancelled = true →
    post.foldl (monStep ht) st = st := by
  intro post
  induction post with
  | nil => intro st _ _; rfl
  | cons e rest ih =>
    intro st h1 h2
    simp only [List.foldl_cons, monStep_frozen ht st e h1 h2]
    exact ih st h1 h2

/-- With no watchdog armed, a closed connection freezes the monitor. -/
lemma monStep_false_frozen (st : MonState) (e : MonEvent)
    (h1 : st.connClosed = true) : monStep false st e = st := by
  cases e <;> simp [monStep, h1]

lemma foldl_false_frozen : ∀ (post : List MonEvent) (st : MonState),
    st.connClosed = true → post.foldl (monStep false) st = st := by
  intro post
  induction post with
  | nil => intro st _; rfl
  | cons e rest ih =>
    intro st h1
    simp only [List.foldl_cons, monStep_false_frozen st e h1]
    exact ih st h1

lemma orElse_rejected {o : Option Settled} {x : Settled} {m : String}
    (h : (o <|> some x) = some (.rejectedWith m)) :
    o = some (.rejectedWith m) ∨ (o = none ∧ x = .rejectedWith m) := by
  cases o <;> simp_all

lemma orElse_resolved {o : Option Settled} {x : Settled} {r : OperationResultM}
    (h : (o <|> some x) = some (.resolvedWith r)) :
    o = some (.resolvedWith r) ∨ (o = none ∧ x = .resolvedWith r) := by
  cases o <;> simp_all

lemma rejInv_step (ht : Bool) (st : MonState) (e : MonEvent)
    (h : RejInv ht st) : RejInv ht (monStep ht st e) := by
  cases e with
  | queueUpdate d => exact h
  | progress d => exact h
  | completed d =>
    by_cases hc : st.connClosed = true
    · have heq : monStep ht st (.completed d) = st := by
        simp only [monStep]; rw [if_pos hc]
      rw [heq]; exact h
    · have heq : monStep ht st (.completed d) =
          { st with timeoutCancelled := true, connClosed := true
                    settled := st.settled <|> some (.resolvedWith (completedResult d)) } := by
        simp only [monStep]; rw [if_neg hc]
      rw [heq]
      intro m hm
      rcases orElse_rejected hm with h1 | ⟨h1, h2⟩
      · obtain ⟨a, b, c⟩ := h m h1
        exact ⟨a, b, c⟩
      · simp at h2
  | opError d =>
    by_cases hc : st.connClosed = true
    · have heq : monStep ht st (.opError d) = st := by
        simp only [monStep]; rw [if_pos hc]
      rw [heq]; exact h
    · have heq : monStep ht st (.opError d) =
          { st with timeoutCancelled := true, connClosed := true
                    settled := st.settled <|> some (.resolvedWith (errorResult d)) } := by
        simp only [monStep]; rw [if_neg hc]
      rw [heq]
      intro m hm
      rcases orElse_rejected hm with h1 | ⟨h1, h2⟩
      · obtain ⟨a, b, c⟩ := h m h1
        exact ⟨a, b, c⟩
      · simp at h2
  | cancelled d =>
    by_cases hc : st.connClosed = true
    · have heq : monStep ht st (.cancelled d) = st := by
        simp only [monStep]; rw [if_pos hc]
      rw [heq]; exact h
    · have heq : monStep ht st (.cancelled d) =
          { st with timeoutCancelled := true, connClosed := true
                    settled := st.settled <|> some (.resolvedWith (cancelledResult d)) } := by
        simp only [monStep]; rw [if_neg hc]
      rw [heq]
      intro m hm
      rcases orElse_rejected hm with h1 | ⟨h1, h2⟩
      · obtain ⟨a, b, c⟩ := h m h1
        exact ⟨a, b, c⟩
      · simp at h2
  | timeoutFires =>
    by_cases hg : (ht && !st.timeoutCancelled && !st.timeoutFired) = true
    · have heq : monStep ht st .timeoutFires =
          { st with timeoutFired := true, released := true
                    settled := st.settled <|> some (.rejectedWith "Operation timeout") } := by
        simp only [monStep]; rw [if_pos hg]
      rw [heq]
      intro m hm
      have hb : ht = true := by
        simp only [Bool.and_eq_true] at hg
        exact hg.1.1
      rcases orElse_rejected hm with h1 | ⟨h1, h2⟩
      · obtain ⟨a, b, _⟩ := h m h1
        exact ⟨a, b, rfl⟩
      · injection h2 with h3
        exact ⟨h3.symm, hb, rfl⟩
    · have heq : monStep ht st .timeoutFires = st := by
        simp only [monStep]; rw [if_neg hg]
      rw [heq]; exact h
  | retriesExhausted =>
    by_cases hc : st.connClosed = true
    · have heq : monStep ht st .retriesExhausted = st := by
        simp only [monStep]; rw [if_pos hc]
      rw [heq]; exact h
    · have heq : monStep ht st .retriesExhausted = { st with connClosed := true } := by
        simp only [monStep]; rw [if_neg hc]
      rw [heq]
      intro m hm
      obtain ⟨a, b, c⟩ := h m hm
      exact ⟨a, b, c⟩

lemma rejInvH_step (ht : Bool) (st : MonState) (e : MonEvent)
    (h : RejInv ht st) : RejInv ht (monStepHanging ht st e) := by
  cases e with
  | timeoutFires =>
    by_cases hg : (ht && !st.timeoutCancelled && !st.timeoutFired) = true
    · have heq : monStepHanging ht st .timeoutFires =
          { st with timeoutFired := true, released := true
                    settled := st.settled <|> some (.rejectedWith "Operation timeout") } := by
        simp only [monStepHanging]; rw [if_pos hg]
      rw [heq]
      intro m hm
      have hb : ht = true := by
        simp only [Bool.and_eq_true] at hg
        exact hg.1.1
      rcases orElse_rejected hm with h1 | ⟨h1, h2⟩
      · obtain ⟨a, b, _⟩ := h m h1
        exact ⟨a, b, rfl⟩
      · injection h2 with h3
        exact ⟨h3.symm, hb, rfl⟩
    · have heq : monStepHanging ht st .timeoutFires = st := by
        simp only [monStepHanging]; rw [if_neg hg]
      rw [heq]; exact h
  | queueUpdate d => exact h
  | progress d => exact h
  | completed d => exact h
  | opError d => exact h
  | cancelled d => exact h
  | retriesExhausted => exact h

lemma rejInv_fold (ht : Bool) : ∀ (evs : List MonEvent) (st : MonState),
    RejInv ht st → RejInv ht (evs.foldl (monStep ht) st) := by
  intro evs
  induction evs with
  | nil => intro st h; exact h
  | cons e rest ih =>
    intro st h
    exact ih (monStep ht st e) (rejInv_step ht st e h)

lemma rejInvH_fold (ht : Bool) : ∀ (evs : List MonEvent) (st : MonState),
    RejInv ht st → RejInv ht (evs.foldl (monStepHanging ht) st) := by
  intro evs
  induction evs with
  | nil => intro st h; exact h
  | cons e rest ih =>
    intro st h
    exact ih (monStepHanging ht st e) (rejInvH_step ht st e h)

lemma rejInv_init (ht : Bool) : RejInv ht initMonState := by
  intro m hm
  simp [initMonState] at hm

/-- C1 counterexample: a monitor whose `connect` call fails rejects the
`monitorOperation` promise even though NO timeout option was supplied
(so no supplied timeout can have elapsed). -/
theorem monitor_rejects_without_timeout :
    (runMonitor false .failsConnect []).settled =
      some (.rejectedWith "Connection timeout") ∧
    (runMonitor false .failsConnect []).timeoutFired = false :=
  ⟨rfl, rfl⟩

/-- C1 (amended): a dispatched `operation_completed` resolves with
`{success: true, result, metadata}`; `operation_error` resolves (does
not reject) with `{success: false, error}`; `operation_cancelled`
resolves with `{success: false, error: "Operation cancelled"}`.  The
promise rejects only on the supplied timeout elapsing or on the
initial connect attempt failing, and on either rejection path the
connection has been force-released before rejecting. -/
theorem monitor_outcomes_and_reject_paths :
    (∀ (ht : Bool) (pre post : List MonEvent) (d : JsVal),
      (∀ e ∈ pre, MonEvent.isBenign e = true) →
      runMonitor ht .opens (pre ++ .completed d :: post) =
        { settled := some (.resolvedWith (completedResult d)), connClosed := true,
          timeoutCancelled := true, timeoutFired := false, released := false }) ∧
    (∀ (ht : Bool) (pre post : List MonEvent) (d : JsVal),
      (∀ e ∈ pre, MonEvent.isBenign e = true) →
      runMonitor ht .opens (pre ++ .opError d :: post) =
        { settled := some (.resolvedWith (errorResult d)), connClosed := true,
          timeoutCancelled := true, timeoutFired := false, released := false }) ∧
    (∀ (ht : Bool) (pre post : List MonEvent) (d : JsVal),
      (∀ e ∈ pre, MonEvent.isBenign e = true) →
      runMonitor ht .opens (pre ++ .cancelled d :: post) =
        { settled := some (.resolvedWith (cancelledResult d)), connClosed := true,
          timeoutCancelled := true, timeoutFired := false, released := false }) ∧
    (∀ (ht : Bool) (co : ConnectOutcome) (ev : List MonEvent) (m : String),
      (runMonitor ht co ev).settled = some (.rejectedWith m) →
      ((m = "Operation timeout" ∧ ht = true ∧ (runMonitor ht co ev).released = true) ∨
       (co = .failsConnect ∧ m = "Connection timeout" ∧
         (runMonitor ht co ev).released = true))) := by
  refine ⟨?_, ?_, ?_, ?_⟩
  · intro ht pre post d hpre
    show (pre ++ .completed d :: post).foldl (monStep ht) initMonState = _
    rw [List.foldl_append, foldl_benign ht pre initMonState hpre]
    have h1 : (MonEvent.completed d :: post).foldl (monStep ht) initMonState =
        post.foldl (monStep ht)
          { settled := some (.resolvedWith (completedResult d)), connClosed := true,
            timeoutCancelled := true, timeoutFired := false, released := false } := rfl
    rw [h1, foldl_frozen ht post _ rfl rfl]
  · intro ht pre post d hpre
    show (pre ++ .opError d :: post).foldl (monStep ht) initMonState = _
    rw [List.foldl_append, foldl_benign ht pre initMonState hpre]
    have h1 : (MonEvent.opError d :: post).foldl (monStep ht) initMonState =
        post.foldl (monStep ht)
          { settled := some (.resolvedWith (errorResult d)), connClosed := true,
            timeoutCancelled := true, timeoutFired := false, released := false } := rfl
    rw [h1, foldl_frozen ht post _ rfl rfl]
  · intro ht pre post d hpre
    show (pre ++ .cancelled d :: post).foldl (monStep ht) initMonState = _
    rw [List.foldl_append, foldl_benign ht pre initMonState hpre]
    have h1 : (MonEvent.cancelled d :: post).foldl (monStep ht) initMonState =
        post.foldl (monStep ht)
          { settled := some (.resolvedWith (cancelledResult d)), connClosed := true,
            timeoutCancelled := true, timeoutFired := false, released := false } := rfl
    rw [h1, foldl_frozen ht post _ rfl rfl]
  · intro ht co ev m hm
    cases co with
    | opens =>
      obtain ⟨a, b, c⟩ := rejInv_fold ht ev initMonState (rejInv_init ht) m hm
      exact Or.inl ⟨a, b, c⟩
    | hangs =>
      obtain ⟨a, b, c⟩ := rejInvH_fold ht ev initMonState (rejInv_init ht) m hm
      exact Or.inl ⟨a, b, c⟩
    | failsConnect =>
      have hm' : some (Settled.rejectedWith "Connection timeout") =
          some (.rejectedWith m) := hm
      injection hm' with h1
      injection h1 with h2
      exact Or.inr ⟨rfl, h2.symm, rfl⟩

/-- Witness for the amended monitor-outcome theorem: a concrete
completion resolves with the success result. -/
theorem monitor_outcomes_witness :
    (∀ e ∈ ([] : List MonEvent), MonEvent.isBenign e = true) ∧
    runMonitor true .opens [.completed demoCompleted] =
      { settled := some (.resolvedWith (completedResult demoCompleted)),
        connClosed := true, timeoutCancelled := true, timeoutFired := false,
        released := false } := by
  refine ⟨by simp, ?_⟩
  exact monitor_outcomes_and_reject_paths.1 true [] [] demoCompleted (by simp)

/-- C5 (code bug): after a successful connect, exhausting the SSE
retry budget closes the connection but settles nothing: with no
timeout supplied, the `monitorOperation` promise stays pending forever,
no matter what happens afterwards.  Likewise a monitor whose connect
attempt hangs never settles. -/
theorem retry_exhaustion_never_settles :
    (runMonitor false .opens [.retriesExhausted]).settled = none ∧
    (∀ post, (runMonitor false .opens (.retriesExhausted :: post)).settled = none) ∧
    (runMonitor false .hangs []).settled = none := by
  refine ⟨rfl, ?_, rfl⟩
  intro post
  have h1 : runMonitor false .opens (.retriesExhausted :: post) =
      post.foldl (monStep false)
        { settled := none, connClosed := true, timeoutCancelled := false,
          timeoutFired := false, released := false } := rfl
  rw [h1, foldl_false_frozen post _ rfl]

lemma excl_completed (d : JsVal) : exclusiveResult (completedResult d) := by
  constructor
  · intro _; rfl
  · intro h; simp [completedResult] at h

lemma excl_error (d : JsVal) : exclusiveResult (errorResult d) := by
  constructor
  · intro h; simp [errorResult] at h
  · intro _; rfl

lemma excl_cancelled (d : JsVal) : exclusiveResult (cancelledResult d) := by
  constructor
  · intro h; simp [cancelledResult] at h
  · intro _; rfl

lemma exclInv_step (ht : Bool) (st : MonState) (e : MonEvent)
    (h : ExclInv st) : ExclInv (monStep ht st e) := by
  cases e with
  | queueUpdate d => exact h
  | progress d => exact h
  | completed d =>
    by_cases hc : st.connClosed = true
    · have heq : monStep ht st (.completed d) = st := by
        simp only [monStep]; rw [if_pos hc]
      rw [heq]; exact h
    · have heq : monStep ht st (.completed d) =
          { st with timeoutCancelled := true, connClosed := true
                    settled := st.settled <|> some (.resolvedWith (completedResult d)) } := by
        simp only [monStep]; rw [if_neg hc]
      rw [heq]
      intro r hr
      rcases orElse_resolved hr with h1 | ⟨h1, h2⟩
      · exact h r h1
      · injection h2 with h3
        rw [← h3]
        exact excl_completed d
  | opError d =>
    by_cases hc : st.connClosed = true
    · have heq : monStep ht st (.opError d) = st := by
        simp only [monStep]; rw [if_pos hc]
      rw [heq]; exact h
    · have heq : monStep ht st (.opError d) =
          { st with timeoutCancelled := true, connClosed := true
                    settled := st.settled <|> some (.resolvedWith (errorResult d)) } := by
        simp only [monStep]; rw [if_neg hc]
      rw [heq]
      intro r hr
      rcases orElse_resolved hr with h1 | ⟨h1, h2⟩
      · exact h r h1
      · injection h2 with h3
        rw [← h3]
        exact excl_error d
  | cancelled d =>
    by_cases hc : st.connClosed = true
    · have heq : monStep ht st (.cancelled d) = st := by
        simp only [monStep]; rw [if_pos hc]
      rw [heq]; exact h
    · have heq : monStep ht st (.cancelled d) =
          { st with timeoutCancelled := true, connClosed := true
                    settled := st.settled <|> some (.resolvedWith (cancelledResult d)) } := by
        simp only [monStep]; rw [if_neg hc]
      rw [heq]
      intro r hr
      rcases orElse_resolved hr with h1 | ⟨h1, h2⟩
      · exact h r h1
      · injection h2 with h3
        rw [← h3]
        exact excl_cancelled d
  | timeoutFires =>
    by_cases hg : (ht && !st.timeoutCancelled && !st.timeoutFired) = true
    · have heq : monStep ht st .timeoutFires =
          { st with timeoutFired := true, released := true
                    settled := st.settled <|> some (.rejectedWith "Operation timeout") } := by
        simp only [monStep]; rw [if_pos hg]
      rw [heq]
      intro r hr
      rcases orElse_resolved hr with h1 | ⟨h1, h2⟩
      · exact h r h1
      · simp at h2
    · have heq : monStep ht st .timeoutFires = st := by
        simp only [monStep]; rw [if_neg hg]
      rw [heq]; exact h
  | retriesExhausted =>
    by_cases hc : st.connClosed = true
    · have heq : monStep ht st .retriesExhausted = st := by
        simp only [monStep]; rw [if_pos hc]
      rw [heq]; exact h
    · have heq : monStep ht st .retriesExhausted = { st with connClosed := true } := by
        simp only [monStep]; rw [if_neg hc]
      rw [heq]
      intro r hr
      exact h r hr

lemma exclInvH_step (ht : Bool) (st : MonState) (e : MonEvent)
    (h : ExclInv st) : ExclInv (monStepHanging ht st e) := by
  cases e with
  | timeoutFires =>
    by_cases hg : (ht && !st.timeoutCancelled && !st.timeoutFired) = true
    · have heq : monStepHanging ht st .timeoutFires =
          { st with timeoutFired := true, released := true
                    settled := st.settled <|> some (.rejectedWith "Operation timeout") } := by
        simp only [monStepHanging]; rw [if_pos hg]
      rw [heq]
      intro r hr
      rcases orElse_resolved hr with h1 | ⟨h1, h2⟩
      · exact h r h1
      · simp at h2
    · have heq : monStepHanging ht st .timeoutFires = st := by
        simp only [monStepHanging]; rw [if_neg hg]
      rw [heq]; exact h
  | queueUpdate d => exact h
  | progress d => exact h
  | completed d => exact h
  | opError d => exact h
  | cancelled d => exact h
  | retriesExhausted => exact h

lemma exclInv_fold (ht : Bool) : ∀ (evs : List MonEvent) (st : MonState),
    ExclInv st → ExclInv (evs.foldl (monStep ht) st) := by
  intro evs
  induction evs with
  | nil => intro st h; exact h
  | cons e rest ih =>
    intro st h
    exact ih (monStep ht st e) (exclInv_step ht st e h)

lemma exclInvH_fold (ht : Bool) : ∀ (evs : List MonEvent) (st : MonState),
    ExclInv st → ExclInv (evs.foldl (monStepHanging ht) st) := by
  intro evs
  induction evs with
  | nil => intro st h; exact h
  | cons e rest ih =>
    intro st h
    exact ih (monStepHanging ht st e) (exclInvH_step ht st e h)

lemma exclInv_init : ExclInv initMonState := by
  intro r hr
  simp [initMonState] at hr

/-- C7: for every result `monitorOperation` resolves with (and hence
every result in a resolved `monitorMultiple` map), success implies the
error field is absent, and failure implies the result field is absent. -/
theorem result_exclusivity :
    (∀ (ht : Bool) (co : ConnectOutcome) (ev : List MonEvent) (r : OperationResultM),
      (runMonitor ht co ev).settled = some (.resolvedWith r) → exclusiveResult r) ∧
    (∀ inputs out, runMonitorMultiple inputs = some out →
      ∀ p ∈ out, exclusiveResult p.2) := by
  have part1 : ∀ (ht : Bool) (co : ConnectOutcome) (ev : List MonEvent)
      (r : OperationResultM),
      (runMonitor ht co ev).settled = some (.resolvedWith r) → exclusiveResult r := by
    intro ht co ev r hm
    cases co with
    | opens => exact exclInv_fold ht ev initMonState exclInv_init r hm
    | hangs => exact exclInvH_fold ht ev initMonState exclInv_init r hm
    | failsConnect =>
      have hm' : some (Settled.rejectedWith "Connection timeout") =
          some (.resolvedWith r) := hm
      simp at hm'
  refine ⟨part1, ?_⟩
  intro inputs
  induction inputs with
  | nil =>
    intro out hout p hp
    simp only [runMonitorMultiple] at hout
    injection hout with h1
    rw [← h1] at hp
    simp at hp
  | cons q rest ih =>
    intro out hout p hp
    simp only [runMonitorMultiple] at hout
    rcases hset : (runMonitor q.2.1 q.2.2.1 q.2.2.2).settled with _ | s
    · rw [hset] at hout; simp at hout
    · cases s with
      | rejectedWith m => rw [hset] at hout; simp at hout
      | resolvedWith r =>
        rw [hset] at hout
        rcases hrest : runMonitorMultiple rest with _ | out'
        · rw [hrest] at hout; simp at hout
        · rw [hrest] at hout
          simp only [] at hout
          injection hout with h1
          rw [← h1] at hp
          rcases List.mem_cons.mp hp with hpe | hpm
          · rw [hpe]
            exact part1 _ _ _ r hset
          · exact ih out' hrest p hpm

/-- Witness for result exclusivity at a concrete resolved monitor. -/
theorem result_exclusivity_witness :
    (runMonitor true .opens [.completed demoCompleted]).settled =
      some (.resolvedWith (completedResult demoCompleted)) ∧
    exclusiveResult (completedResult demoCompleted) :=
  ⟨rfl, result_exclusivity.1 true .opens [.completed demoCompleted] _ rfl⟩

/-- C8 (code bug): `closeAll()` empties the registry, clears the grace
timers, cancels the sweep and closes every registered client — but a
reconnect backoff timer pending inside a monitored `SSEClient` is not
cancelled, and when the clock later reaches it, it fires and opens a
brand-new transport: a further side effect after `closeAll()`. -/
theorem closeAll_clears_registry_but_leaves_backoff_timer :
    opDemo.closeAll.registry = [] ∧
    opDemo.closeAll.graceTimers = [] ∧
    opDemo.closeAll.sweepActive = false ∧
    opDemo.closeAll.pool = [pendingClientWorld.close] ∧
    pendingClientWorld.close.client.closed = true ∧
    pendingClientWorld.close.pending ≠ [] ∧
    ((opDemo.closeAll.fireBackoff 0).pool[0]?.map (fun cw => cw.connects.length)
      = some 2) ∧
    ((opDemo.closeAll.fireBackoff 0).pool[0]?.map
      (fun cw => cw.client.eventSource.isSome) = some true) := by
  decide

/-- C9: a queued response (`status: "queued"` with a truthy
`operation_id`) together with `maxWait === 0` makes `executeQuery`
throw the typed queued error carrying the queued response object
verbatim — every queue field unchanged — instead of monitoring. -/
theorem queued_no_wait_throws_verbatim (gid : String) (mode : Option String)
    (hasRaw : Bool) (now : String) (oid msg : String) (qp wse : Int)
    (hmode : mode ≠ some "stream") (hoid : oid ≠ "") :
    executeQuery gid mode (some 0) now
        { error := none, data := some (queuedObj oid qp wse msg), hasRaw := hasRaw } =
      .thrownQueued (queuedObj oid qp wse msg) ∧
    (queuedObj oid qp wse msg).get "status" = some (.str "queued") ∧
    (queuedObj oid qp wse msg).get "operation_id" = some (.str oid) ∧
    (queuedObj oid qp wse msg).get "queue_position" = some (.num qp) ∧
    (queuedObj oid qp wse msg).get "estimated_wait_seconds" = some (.num wse) ∧
    (queuedObj oid qp wse msg).get "message" = some (.str msg) := by
  refine ⟨?_, rfl, rfl, rfl, rfl, rfl⟩
  have hbeq : (mode == some "stream") = false := by
    simp only [beq_eq_false_iff_ne, ne_eq]
    exact hmode
  simp [executeQuery, executeQueryBody, hbeq, queuedObj, JsVal.get, isQueuedStatus,
    jsTruthy, JsVal.truthy, hoid, List.lookup]

/-- Witness for the queued-no-wait theorem at the spec's concrete
scenario (`op_2`, position 3, 30 seconds estimated wait). -/
theorem queued_no_wait_witness :
    ((none : Option String) ≠ some "stream") ∧ ("op_2" ≠ "") ∧
    executeQuery "g" none (some 0) "2024-01-01T00:00:00Z"
        { error := none, data := some (queuedObj "op_2" 3 30 "Query queued"),
          hasRaw := false } =
      .thrownQueued (queuedObj "op_2" 3 30 "Query queued") := by
  refine ⟨by simp, by decide, ?_⟩
  exact (queued_no_wait_throws_verbatim "g" none false "2024-01-01T00:00:00Z"
    "op_2" "Query queued" 3 30 (by simp) (by decide)).1

lemma setES_getElem_self (l : List ESRec) (i : Nat) (f : ESRec → ESRec) (es : ESRec)
    (h : l[i]? = some es) : (setES l i f)[i]? = some (f es) := by
  induction l generalizing i with
  | nil => simp at h
  | cons a rest ih =>
    cases i with
    | zero =>
      simp only [List.getElem?_cons_zero, Option.some.injEq] at h
      rw [← h]
      simp [setES]
    | succ n =>
      simp only [List.getElem?_cons_succ] at h
      simp only [setES, List.getElem?_cons_succ]
      exact ih n h

lemma getElem_concat (l : List ESRec) (a : ESRec) : (l ++ [a])[l.length]? = some a := by
  induction l with
  | nil => rfl
  | cons x xs ih =>
    simp only [List.cons_append, List.length_cons, List.getElem?_cons_succ]
    exact ih

lemma lastIdCarry_orElse (ids : List (Option Nat)) :
    ∀ M : Option Nat, lastIdCarry M ids = ((lastIdCarry none ids) <|> M) := by
  induction ids with
  | nil => intro M; rfl
  | cons id? rest ih =>
    intro M
    show lastIdCarry (id? <|> M) rest = ((lastIdCarry (id? <|> none) rest) <|> M)
    rw [ih (id? <|> M), ih (id? <|> none)]
    cases lastIdCarry none rest <;> cases id? <;> rfl

/-- Effect of the transport `open` signal on the current connecting
handle. -/
lemma onOpen_proj (w : World) (i : Nat) (es : ESRec)
    (h1 : w.client.eventSource = some i) (h2 : w.esTable[i]? = some es)
    (h3 : es.readyState = .connecting) :
    (step w .transportOpen).client.eventSource = some i ∧
    (step w .transportOpen).esTable[i]? = some { es with readyState := .opened } ∧
    (step w .transportOpen).client.closed = w.client.closed ∧
    (step w .transportOpen).pending = w.pending ∧
    (step w .transportOpen).connects = w.connects ∧
    (step w .transportOpen).client.lastEventId = w.client.lastEventId ∧
    (step w .transportOpen).client.reconnectAttempts = 0 ∧
    (step w .transportOpen).client.config = w.client.config := by
  simp only [step, World.onOpen, h1, h2, h3, if_true]
  simp [World.emit, setES_getElem_self w.esTable i _ es h2]

/-- Effect of one unnamed message (parse succeeding) on the current
open handle. -/
lemma onMessage_proj (w : World) (i : Nat) (es : ESRec) (id? : Option Nat)
    (h1 : w.client.eventSource = some i) (h2 : w.esTable[i]? = some es)
    (h3 : es.readyState = .opened) :
    (step w (.message id? true)).client.eventSource = some i ∧
    (step w (.message id? true)).esTable[i]? =
      some { es with browserLastId := id? <|> es.browserLastId } ∧
    (step w (.message id? true)).client.closed = w.client.closed ∧
    (step w (.message id? true)).pending = w.pending ∧
    (step w (.message id? true)).connects = w.connects ∧
    (step w (.message id? true)).client.reconnectAttempts = w.client.reconnectAttempts ∧
    (step w (.message id? true)).client.config = w.client.config ∧
    (step w (.message id? true)).client.lastEventId = (id? <|> es.browserLastId) := by
  simp only [step, World.onMessage, h1, h2, h3, if_true]
  simp [World.emit, setES_getElem_self w.esTable i _ es h2, h3]

/-- Effect of a whole message burst on the current open handle. -/
lemma msgs_fold_proj (msgs : List (Option Nat)) : ∀ (w : World) (i : Nat) (es : ESRec),
    w.client.eventSource = some i → w.esTable[i]? = some es →
    es.readyState = .opened →
    (msgs.foldl (fun acc id? => step acc (.message id? true)) w).client.eventSource = some i ∧
    (msgs.foldl (fun acc id? => step acc (.message id? true)) w).esTable[i]? =
      some { es with browserLastId := lastIdCarry es.browserLastId msgs } ∧
    (msgs.foldl (fun acc id? => step acc (.message id? true)) w).client.closed
      = w.client.closed ∧
    (msgs.foldl (fun acc id? => step acc (.message id? true)) w).pending = w.pending ∧
    (msgs.foldl (fun acc id? => step acc (.message id? true)) w).connects = w.connects ∧
    (msgs.foldl (fun acc id? => step acc (.message id? true)) w).client.reconnectAttempts
      = w.client.reconnectAttempts ∧
    (msgs.foldl (fun acc id? => step acc (.message id? true)) w).client.config
      = w.client.config ∧
    (msgs.foldl (fun acc id? => step acc (.message id? true)) w).client.lastEventId =
      (if msgs.isEmpty then w.client.lastEventId
       else lastIdCarry es.browserLastId msgs) := by
  induction msgs with
  | nil =>
    intro w i es h1 h2 _
    exact ⟨h1, h2, rfl, rfl, rfl, rfl, rfl, rfl⟩
  | cons id? rest ih =>
    intro w i es h1 h2 h3
    simp only [List.foldl_cons]
    obtain ⟨m1, m2, m3, m4, m5, m6, m7, m8⟩ := onMessage_proj w i es id? h1 h2 h3
    obtain ⟨f1, f2, f3, f4, f5, f6, f7, f8⟩ :=
      ih (step w (.message id? true)) i { es with browserLastId := id? <|> es.browserLastId }
        m1 m2 h3
    refine ⟨f1, f2, ?_, ?_, ?_, ?_, ?_, ?_⟩
    · rw [f3, m3]
    · rw [f4, m4]
    · rw [f5, m5]
    · rw [f6, m6]
    · rw [f7, m7]
    · rw [f8, m8]
      cases rest with
      | nil => rfl
      | cons r rs => rfl

/-- Effect of a transport error while the retry budget is open: bump
the counter and schedule the backoff timer carrying the erroring
connect call's parameters. -/
lemma onError_proj (w : World) (i : Nat) (es : ESRec)
    (h1 : w.client.eventSource = some i) (h2 : w.esTable[i]? = some es)
    (hcl : w.client.closed = false)
    (hlt : w.client.reconnectAttempts < w.client.config.maxRetries) :
    (step w .transportError).pending = w.pending ++
      [⟨w.client.config.retryDelay * 2 ^ w.client.reconnectAttempts, es.opId, es.fromSeq⟩] ∧
    (step w .transportError).connects = w.connects ∧
    (step w .transportError).client.closed = false ∧
    (step w .transportError).client.lastEventId = w.client.lastEventId ∧
    (step w .transportError).client.eventSource = some i ∧
    (step w .transportError).esTable = w.esTable ∧
    (step w .transportError).client.reconnectAttempts = w.client.reconnectAttempts + 1 ∧
    (step w .transportError).client.config = w.client.config := by
  have he : step w .transportError = w.handleError es.opId es.fromSeq :=
    onError_handleError w es i h1 h2 hcl
  rw [he]
  simp [World.handleError, hcl, hlt, World.emit, h1]

/-- Effect of the single pending backoff timer firing: the resumption
marker is computed from the current `lastEventId`, falling back to the
timer's captured `fromSequence`, and a fresh handle is connected. -/
lemma fireTimer_proj (w : World) (d : Nat) (oid : String) (fs : Nat)
    (hp : w.pending = [⟨d, oid, fs⟩]) :
    (step w .timerFire).pending = [] ∧
    (step w .timerFire).connects =
      w.connects ++ [(oid, expResume fs w.client.lastEventId)] ∧
    (step w .timerFire).client.eventSource = some w.esTable.length ∧
    (step w .timerFire).esTable[w.esTable.length]? = some
      { url := sseUrl w.client.config oid (expResume fs w.client.lastEventId),
        opId := oid, fromSeq := expResume fs w.client.lastEventId,
        readyState := .connecting, browserLastId := none } ∧
    (step w .timerFire).client.closed = w.client.closed ∧
    (step w .timerFire).client.lastEventId = w.client.lastEventId ∧
    (step w .timerFire).client.reconnectAttempts = w.client.reconnectAttempts ∧
    (step w .timerFire).client.config = w.client.config := by
  simp only [step, World.fireTimer, hp]
  cases hlei : w.client.lastEventId with
  | none => simp [World.connect, getElem_concat, expResume, hlei]
  | some n => simp [World.connect, getElem_concat, expResume, hlei]

/-- One full episode preserves the inter-episode invariant, appends
exactly the expected resumption request to the connect log, and keeps
the attempt counter within budget. -/
lemma play_spec (e : Episode) (op : String) (s0 : Nat) (M : Option Nat) (w : World)
    (hInv : EpInv op s0 M w)
    (hlt : w.client.reconnectAttempts < w.client.config.maxRetries) :
    EpInv op s0 (e.marker M) (e.play w) ∧
    (e.play w).connects = w.connects ++ [(op, expResume s0 (e.marker M))] ∧
    (e.play w).client.config = w.client.config ∧
    (e.play w).client.reconnectAttempts =
      (if e.opened then 1 else w.client.reconnectAttempts + 1) := by
  obtain ⟨hcl, hp, hM, i, es, h1, h2, hop, hrs, hbr, hfs⟩ := hInv
  cases e with
  | mk opened msgs =>
    cases opened with
    | false =>
      have hplay : Episode.play w ⟨false, msgs⟩ =
          step (step w .transportError) .timerFire := by
        simp [Episode.play]
      have hmark : Episode.marker ⟨false, msgs⟩ M = M := by
        simp [Episode.marker]
      obtain ⟨e1, e2, e3, e4, e5, e6, e7, e8⟩ := onError_proj w i es h1 h2 hcl hlt
      have hp2 : (step w .transportError).pending =
          [⟨w.client.config.retryDelay * 2 ^ w.client.reconnectAttempts, es.opId, es.fromSeq⟩] := by
        rw [e1, hp]; rfl
      obtain ⟨t1, t2, t3, t4, t5, t6, t7, t8⟩ := fireTimer_proj (step w .transportError)
        (w.client.config.retryDelay * 2 ^ w.client.reconnectAttempts) es.opId es.fromSeq hp2
      have hres : expResume es.fromSeq (step w .transportError).client.lastEventId =
          expResume s0 M := by
        rw [e4]
        cases hlei : w.client.lastEventId with
        | none => rw [expResume, hfs]
        | some m => rw [expResume, hM m hlei, expResume]
      rw [hplay, hmark]
      refine ⟨⟨?_, t1, ?_, ?_⟩, ?_, ?_, ?_⟩
      · rw [t5, e3]
      · intro m hm
        rw [t6, e4] at hm
        exact hM m hm
      · exact ⟨(step w .transportError).esTable.length, _, t3, t4, hop, rfl, rfl, hres⟩
      · rw [t2, e2, hres, hop]
      · rw [t8, e8]
      · rw [t7, e7]
        simp
    | true =>
      have hplay : Episode.play w ⟨true, msgs⟩ =
          step (step (msgs.foldl (fun acc id? => step acc (.message id? true))
            (step w .transportOpen)) .transportError) .timerFire := by
        simp [Episode.play]
      obtain ⟨o1, o2, o3, o4, o5, o6, o7, o8⟩ := onOpen_proj w i es h1 h2 hrs
      obtain ⟨f1, f2, f3, f4, f5, f6, f7, f8⟩ :=
        msgs_fold_proj msgs (step w .transportOpen) i { es with readyState := .opened }
          o1 o2 rfl
      have hcl1 : (msgs.foldl (fun acc id? => step acc (.message id? true))
          (step w .transportOpen)).client.closed = false := by rw [f3, o3, hcl]
      have hlt1 : (msgs.foldl (fun acc id? => step acc (.message id? true))
          (step w .transportOpen)).client.reconnectAttempts <
          (msgs.foldl (fun acc id? => step acc (.message id? true))
            (step w .transportOpen)).client.config.maxRetries := by
        rw [f6, o7, f7, o8]
        omega
      obtain ⟨e1, e2, e3, e4, e5, e6, e7, e8⟩ :=
        onError_proj _ i _ f1 f2 hcl1 hlt1
      have hp2 : (step (msgs.foldl (fun acc id? => step acc (.message id? true))
          (step w .transportOpen)) .transportError).pending =
          [⟨(msgs.foldl (fun acc id? => step acc (.message id? true))
                (step w .transportOpen)).client.config.retryDelay *
              2 ^ (msgs.foldl (fun acc id? => step acc (.message id? true))
                (step w .transportOpen)).client.reconnectAttempts,
             es.opId, es.fromSeq⟩] := by
        rw [e1, f4, o4, hp]; rfl
      obtain ⟨t1, t2, t3, t4, t5, t6, t7, t8⟩ := fireTimer_proj _ _ es.opId es.fromSeq hp2
      have hmark : Episode.marker ⟨true, msgs⟩ M = lastIdCarry M msgs := by
        simp [Episode.marker]
      have hres : expResume es.fromSeq
          (step (msgs.foldl (fun acc id? => step acc (.message id? true))
            (step w .transportOpen)) .transportError).client.lastEventId =
          expResume s0 (lastIdCarry M msgs) := by
        rw [e4, f8]
        cases msgs with
        | nil =>
          rw [o6]
          show expResume es.fromSeq w.client.lastEventId = expResume s0 M
          cases hlei : w.client.lastEventId with
          | none => rw [expResume, hfs]
          | some m => rw [expResume, hM m hlei, expResume]
        | cons a as =>
          simp only [List.isEmpty_cons, if_false, Bool.false_eq_true]
          rw [hbr, lastIdCarry_orElse (a :: as) M]
          cases hcarry : lastIdCarry none (a :: as) with
          | none =>
            show expResume es.fromSeq none = expResume s0 M
            rw [expResume, hfs]
          | some m => rfl
      have hlast : ∀ m, (step (msgs.foldl (fun acc id? => step acc (.message id? true))
          (step w .transportOpen)) .transportError).client.lastEventId = some m →
          lastIdCarry M msgs = some m := by
        intro m hm
        rw [e4, f8] at hm
        cases msgs with
        | nil =>
          rw [o6] at hm
          have := hM m hm
          rw [lastIdCarry, List.foldl_nil, this]
        | cons a as =>
          simp only [List.isEmpty_cons, if_false, Bool.false_eq_true] at hm
          rw [hbr] at hm
          rw [lastIdCarry_orElse (a :: as) M, hm]
          rfl
      rw [hplay, hmark]
      refine ⟨⟨?_, t1, ?_, ?_⟩, ?_, ?_, ?_⟩
      · rw [t5, e3]
      · intro m hm
        rw [t6] at hm
        exact hlast m hm
      · exact ⟨_, _, t3, t4, hop, rfl, rfl, hres⟩
      · rw [t2, e2, f5, o5, hres, hop]
      · rw [t8, e8, f7, o8]
      · rw [t7, e7, f6, o7]
        simp

/-- Pushing the invariant through a whole episode list: the connect log
grows by exactly the expected resumption requests. -/
lemma runEpisodes_connects (eps : List Episode) : ∀ (op : String) (s0 : Nat)
    (M : Option Nat) (w : World), EpInv op s0 M w →
    w.client.reconnectAttempts + eps.length ≤ w.client.config.maxRetries →
    (runEpisodes w eps).connects =
      w.connects ++ (expectedResumes s0 M eps).map (fun n => (op, n)) := by
  induction eps with
  | nil =>
    intro op s0 M w _ _
    simp [runEpisodes, expectedResumes]
  | cons e rest ih =>
    intro op s0 M w hInv hlen
    simp only [List.length_cons] at hlen
    have hlt : w.client.reconnectAttempts < w.client.config.maxRetries := by omega
    obtain ⟨hInv', hconn, hcfg, hatt⟩ := play_spec e op s0 M w hInv hlt
    have hlen' : (e.play w).client.reconnectAttempts + rest.length ≤
        (e.play w).client.config.maxRetries := by
      rw [hcfg, hatt]
      split <;> omega
    have hrec := ih op s0 (e.marker M) (e.play w) hInv' hlen'
    show (runEpisodes (e.play w) rest).connects = _
    rw [hrec, hconn]
    simp [expectedResumes, List.append_assoc]

/-- C2: over any sequence of at most `maxRetries` drop/reconnect
episodes, every reconnect attempt is requested with `from_sequence`
equal to the last received sequence marker plus one, falling back to
the original starting marker when no marker-bearing event was received
yet; in particular, after receiving marker 5 and a drop, the reconnect
asks for `from_sequence = 6`. -/
theorem sse_resumption_property (cfg : SSEConfig) (op : String) (s0 : Nat)
    (eps : List Episode) (hlen : eps.length ≤ cfg.maxRetries) :
    (runEpisodes ((SSEClient.new cfg).connect op s0) eps).connects =
      (op, s0) :: (expectedResumes s0 none eps).map (fun n => (op, n)) ∧
    (runEpisodes ((SSEClient.new demoConfig).connect "op1" 0)
        [{ opened := true, msgs := [some 5] }]).connects = [("op1", 0), ("op1", 6)] := by
  refine ⟨?_, by decide⟩
  have hInv : EpInv op s0 none ((SSEClient.new cfg).connect op s0) := by
    refine ⟨rfl, rfl, ?_, 0,
      { url := sseUrl cfg op s0, opId := op, fromSeq := s0,
        readyState := .connecting, browserLastId := none },
      rfl, rfl, rfl, rfl, rfl, rfl⟩
    intro m hm
    exact absurd hm (by simp [SSEClient.new, World.connect])
  have h0 : ((SSEClient.new cfg).connect op s0).client.reconnectAttempts + eps.length ≤
      ((SSEClient.new cfg).connect op s0).client.config.maxRetries := by
    simpa [SSEClient.new, World.connect] using hlen
  rw [runEpisodes_connects eps op s0 none _ hInv h0]
  rfl

/-- Witness for the resumption property at the concrete
marker-then-drop scenario. -/
theorem sse_resumption_witness :
    ([{ opened := true, msgs := [some 5] }] : List Episode).length ≤
      demoConfig.maxRetries ∧
    (runEpisodes ((SSEClient.new demoConfig).connect "op1" 0)
        [{ opened := true, msgs := [some 5] }]).connects =
      ("op1", 0) :: (expectedResumes 0 none
        [{ opened := true, msgs := [some 5] }]).map (fun n => ("op1", n)) :=
  ⟨by decide, (sse_resumption_property demoConfig "op1" 0
    [{ opened := true, msgs := [some 5] }] (by decide)).1⟩

end RoboClient
